import Mathlib

/-!
Verification of the Cross-Market Settlement Feasibility Engine.

This development shallowly embeds the decision core of the engine:

* `app/models/holiday.py` — `HolidayCalendar` (trading/settlement-day
  predicates, holiday lookup, next-trading-day scan);
* `app/data/holiday_sources.py` — `HolidayDataManager.is_trading_day`
  (the second, override-aware calendar implementation);
* `app/services/calendar_service.py` — settlement-date advance,
  common-settlement-date roll, next-viable-trade-date search,
  trading-overlap lookup;
* `app/services/timezone_service.py` — session materialization and
  overlap windows;
* `app/services/settlement_engine.py` — cut-off checks and the status
  classifier.

Modelling conventions:

* Dates are integers counting days from an epoch that falls on a Monday,
  so the weekday of day `d` is `d % 7` (Monday = 0, weekend iff `≥ 5`),
  mirroring the `date.weekday() >= 5` checks of the Python source.
* Instants are integers counting seconds; a timezone is modelled by its
  fixed offset from UTC in seconds, so converting a local wall time on
  date `d` to UTC is `d * 86400 + wall - offset`, and a wall-clock
  time of day is a second count in `[0, 86400)`.
* The unbounded Python `while` loops are embedded with an explicit fuel
  argument and return `none` when the fuel is exhausted before the loop
  condition turns false; the bounded `for _ in range(n)` loops are
  embedded by structural recursion on the remaining iteration count.
* Python exceptions raised at the end of a capped scan are embedded as
  `Except String`.
-/

namespace TradeSync

/-- Seconds in a civil day. -/
def secondsPerDay : Int := 86400

/-! ## Holiday calendar (`app/models/holiday.py`) -/

/-- A manual holiday entry of `HolidayCalendar._manual_holidays`
(the `Holiday` pydantic model, restricted to the fields the calendar
predicates and reasons read). -/
structure Holiday where
  name : String
  affects_trading : Bool
  affects_settlement : Bool
deriving DecidableEq, Repr

/-- The per-market `HolidayCalendar` state: the backing
`exchange_calendars` session predicate, the `holidays`-library public
holiday name lookup, and the manual-holiday table. -/
structure HolidayCalendar where
  exchangeIsSession : Int → Bool
  publicHolidayName : Int → Option String
  manual : Int → Option Holiday

/-- Weekend test used throughout the source (`date.weekday() >= 5`). -/
def isWeekendDay (d : Int) : Bool := 5 ≤ d % 7

/-- `HolidayCalendar.is_trading_day`: a manual holiday with
`affects_trading` closes the date; otherwise (including when a manual
holiday exists but does not affect trading) the exchange calendar
decides. -/
def isTradingDay (cal : HolidayCalendar) (d : Int) : Bool :=
  match cal.manual d with
  | some h => if h.affects_trading then false else cal.exchangeIsSession d
  | none => cal.exchangeIsSession d

/-- `HolidayCalendar.is_settlement_day`: a manual holiday with
`affects_settlement` blocks settlement; otherwise the trading-day
predicate decides. -/
def isSettlementDay (cal : HolidayCalendar) (d : Int) : Bool :=
  match cal.manual d with
  | some h => if h.affects_settlement then false else isTradingDay cal d
  | none => isTradingDay cal d

/-- `HolidayCalendar.get_holiday`: manual entry first, then weekend,
then a non-session date named from the public-holiday source. -/
def getHoliday (cal : HolidayCalendar) (d : Int) : Option Holiday :=
  match cal.manual d with
  | some h => some h
  | none =>
    if isWeekendDay d then
      some { name := "Weekend", affects_trading := true, affects_settlement := true }
    else if !cal.exchangeIsSession d then
      some { name := (cal.publicHolidayName d).getD "Market Holiday",
             affects_trading := true, affects_settlement := true }
    else none

/-- Body of `HolidayCalendar.get_next_trading_day`: scan up to `n`
consecutive dates starting at `d`. -/
def nextTradingAux (cal : HolidayCalendar) : Nat → Int → Option Int
  | 0, _ => none
  | n + 1, d => if isTradingDay cal d then some d else nextTradingAux cal n (d + 1)

/-- `HolidayCalendar.get_next_trading_day`: scan the 30 dates after
`fromDate`; raise when none is a trading day. -/
def getNextTradingDay (cal : HolidayCalendar) (fromDate : Int) : Except String Int :=
  match nextTradingAux cal 30 (fromDate + 1) with
  | some d => .ok d
  | none => .error "Could not find next trading day"

/-! ## The second calendar implementation
(`app/data/holiday_sources.py`, `HolidayDataManager`) -/

/-- The `ManualOverride` record of the holiday data plane. -/
structure ManualOverride where
  name : String
  is_closure : Bool
  affects_trading : Bool
  affects_settlement : Bool
deriving DecidableEq, Repr

/-- The `HolidayDataManager` state restricted to what its trading-day
query reads: the exchange-session source and the manual-override
source. -/
structure HolidayDataManager where
  exchangeIsTradingDay : Int → Bool
  manualOverride : Int → Option ManualOverride

/-- `HolidayDataManager.is_trading_day`: a manual override resolves
first (closure forces closed, non-closure forces open); otherwise the
exchange calendar decides. -/
def managerIsTradingDay (m : HolidayDataManager) (d : Int) : Bool :=
  match m.manualOverride d with
  | some o => if o.is_closure then false else true
  | none => m.exchangeIsTradingDay d

/-! ## Markets (`app/models/market.py`) -/

/-- `TradingHours`: open and close wall times, optional lunch break,
all as seconds of the local day. -/
structure TradingHours where
  openTime : Int
  closeTime : Int
  lunch : Option (Int × Int)
deriving DecidableEq, Repr

/-- `Market`, restricted to the fields the settlement path reads. The
timezone is modelled by its UTC offset in seconds. -/
structure Market where
  timezoneOffset : Int
  tradingHours : TradingHours
  settlementCycle : Nat
  depositoryCutOff : Option Int
deriving DecidableEq, Repr

/-! ## Timezone service (`app/services/timezone_service.py`) -/

/-- `TimezoneService.convert_from_utc` for a fixed-offset zone. -/
def convertFromUtc (t offset : Int) : Int := t + offset

/-- `TimezoneService.combine_date_time_utc` for a fixed-offset zone:
attach the wall time to the date in the zone, then convert to UTC. -/
def combineDateTimeUtc (dateE wall offset : Int) : Int :=
  dateE * secondsPerDay + wall - offset

/-- An `OverlapWindow` dataclass value. -/
structure OverlapWindow where
  start_utc : Int
  end_utc : Int
  start_market_a_local : Int
  end_market_a_local : Int
  start_market_b_local : Int
  end_market_b_local : Int
  duration_minutes : Int
deriving DecidableEq, Repr

/-- `TimezoneService._build_trading_sessions`: one UTC interval, or a
morning and an afternoon interval when both lunch bounds are given. -/
def buildTradingSessions (dateE offset openT closeT : Int)
    (lunchS lunchE : Option Int) : List (Int × Int) :=
  let openU := combineDateTimeUtc dateE openT offset
  let closeU := combineDateTimeUtc dateE closeT offset
  match lunchS, lunchE with
  | some ls, some le =>
    [(openU, combineDateTimeUtc dateE ls offset),
     (combineDateTimeUtc dateE le offset, closeU)]
  | _, _ => [(openU, closeU)]

/-- Construction of one overlap window from its UTC bounds, as in the
body of `calculate_overlap_with_lunch_breaks`. -/
def mkOverlapWindow (offA offB s e : Int) : OverlapWindow :=
  { start_utc := s
    end_utc := e
    start_market_a_local := convertFromUtc s offA
    end_market_a_local := convertFromUtc e offA
    start_market_b_local := convertFromUtc s offB
    end_market_b_local := convertFromUtc e offB
    duration_minutes := (e - s) / 60 }

/-- The per-pair step of the nested session loop: intersect the two
sessions and keep the window only when it is non-empty. -/
def pairOverlap (offA offB : Int) (a b : Int × Int) : Option OverlapWindow :=
  let s := max a.1 b.1
  let e := min a.2 b.2
  if s < e then some (mkOverlapWindow offA offB s e) else none

/-- `TimezoneService.calculate_overlap_with_lunch_breaks`: build both
session lists and collect the non-empty pairwise intersections in
nested-loop order. -/
def calculateOverlapWithLunchBreaks
    (offA openA closeA : Int) (lsA leA : Option Int)
    (offB openB closeB : Int) (lsB leB : Option Int)
    (dateE : Int) : List OverlapWindow :=
  let aSessions := buildTradingSessions dateE offA openA closeA lsA leA
  let bSessions := buildTradingSessions dateE offB openB closeB lsB leB
  aSessions.flatMap fun a => bSessions.filterMap fun b => pairOverlap offA offB a b

/-- `TimezoneService.calculate_overlap_window`: single-interval overlap
of the raw open/close hours; `none` when `start >= end`. -/
def calculateOverlapWindow (offA openA closeA offB openB closeB dateE : Int) :
    Option OverlapWindow :=
  let aOpen := combineDateTimeUtc dateE openA offA
  let aClose := combineDateTimeUtc dateE closeA offA
  let bOpen := combineDateTimeUtc dateE openB offB
  let bClose := combineDateTimeUtc dateE closeB offB
  let s := max aOpen bOpen
  let e := min aClose bClose
  if e ≤ s then none else some (mkOverlapWindow offA offB s e)

/-! ## Calendar service (`app/services/calendar_service.py`) -/

/-- Skip reason recorded by `calculate_settlement_date`: `"Weekend"`
for weekend dates, else the holiday name, else `"Market Holiday"`. -/
def skipReason (cal : HolidayCalendar) (d : Int) : String :=
  if isWeekendDay d then "Weekend"
  else
    match getHoliday cal d with
    | some h => h.name
    | none => "Market Holiday"

/-- `SettlementDateResult` of the calendar service. -/
structure SettlementDateResult where
  trade_date : Int
  settlement_date : Int
  days_to_settle : Int
  skipped_days : List (Int × String)
deriving DecidableEq, Repr

/-- The `while business_days_counted < settlement_cycle` loop of
`calculate_settlement_date`. The loop in the source has no iteration
cap, so it is embedded with fuel: `none` means the loop has not
finished within `fuel` body executions. -/
def settleLoop (cal : HolidayCalendar) (cycle : Nat) :
    Nat → Int → Nat → List (Int × String) → Option (Int × List (Int × String))
  | fuel, current, counted, skipped =>
    if counted < cycle then
      match fuel with
      | 0 => none
      | fuel' + 1 =>
        let next := current + 1
        if isSettlementDay cal next then
          settleLoop cal cycle fuel' next (counted + 1) skipped
        else
          settleLoop cal cycle fuel' next counted (skipped ++ [(next, skipReason cal next)])
    else some (current, skipped)

/-- `CalendarService.calculate_settlement_date`: walk forward from the
trade date one calendar day at a time, counting settlement days until
the cycle is filled. -/
def calculateSettlementDate (cal : HolidayCalendar) (tradeDate : Int)
    (cycle : Nat) (fuel : Nat) : Option SettlementDateResult :=
  (settleLoop cal cycle fuel tradeDate 0 []).map fun r =>
    { trade_date := tradeDate
      settlement_date := r.1
      days_to_settle := r.1 - tradeDate
      skipped_days := r.2 }

/-- The `for _ in range(30)` roll of `calculate_common_settlement_date`:
advance while the two markets cannot both settle; after the cap the
current date is returned unchecked, exactly as in the source. -/
def commonRoll (calA calB : HolidayCalendar) : Nat → Int → Int
  | 0, c => c
  | n + 1, c =>
    if isSettlementDay calA c && isSettlementDay calB c then c
    else commonRoll calA calB n (c + 1)

/-- `CalendarService.calculate_common_settlement_date`: each side
settles on its own cycle, the later date is rolled forward by
`commonRoll` with a 30-iteration cap. -/
def calculateCommonSettlementDate (calA calB : HolidayCalendar)
    (cycleA cycleB : Nat) (tradeDate : Int) (fuel : Nat) :
    Option (Int × SettlementDateResult × SettlementDateResult) :=
  (calculateSettlementDate calA tradeDate cycleA fuel).bind fun ra =>
    (calculateSettlementDate calB tradeDate cycleB fuel).bind fun rb =>
      some (commonRoll calA calB 30 (max ra.settlement_date rb.settlement_date), ra, rb)

/-- `CalendarService.get_trading_overlap_for_date`: `none` when either
market is not a trading day or either market is unknown; otherwise the
lunch-break-aware overlap list. -/
def getTradingOverlapForDate (calA calB : HolidayCalendar)
    (mA mB : Option Market) (dateE : Int) : Option (List OverlapWindow) :=
  if !isTradingDay calA dateE then none
  else if !isTradingDay calB dateE then none
  else
    match mA, mB with
    | some a, some b =>
      some (calculateOverlapWithLunchBreaks
        a.timezoneOffset a.tradingHours.openTime a.tradingHours.closeTime
        (a.tradingHours.lunch.map Prod.fst) (a.tradingHours.lunch.map Prod.snd)
        b.timezoneOffset b.tradingHours.openTime b.tradingHours.closeTime
        (b.tradingHours.lunch.map Prod.fst) (b.tradingHours.lunch.map Prod.snd)
        dateE)
    | _, _ => none

/-- Body of `find_next_viable_trade_date`: scan up to `n` dates from
`d`; a date qualifies when both markets trade and, if required, the
overlap lookup yields a non-empty window list (a `None` lookup result
is treated like an empty one, as by Python truthiness). -/
def viableAux (calA calB : HolidayCalendar)
    (overlap : Int → Option (List OverlapWindow)) (requireOverlap : Bool) :
    Nat → Int → Option Int
  | 0, _ => none
  | n + 1, d =>
    if isTradingDay calA d && isTradingDay calB d then
      if requireOverlap then
        match overlap d with
        | some l => if 0 < l.length then some d else viableAux calA calB overlap requireOverlap n (d + 1)
        | none => viableAux calA calB overlap requireOverlap n (d + 1)
      else some d
    else viableAux calA calB overlap requireOverlap n (d + 1)

/-- `CalendarService.find_next_viable_trade_date`: scan the 60 dates
from `fromDate` (inclusive); raise when none qualifies. -/
def findNextViableTradeDate (calA calB : HolidayCalendar)
    (overlap : Int → Option (List OverlapWindow)) (requireOverlap : Bool)
    (fromDate : Int) : Except String Int :=
  match viableAux calA calB overlap requireOverlap 60 fromDate with
  | some d => .ok d
  | none => .error "Could not find viable trade date"

/-! ## Settlement engine (`app/services/settlement_engine.py`) -/

/-- `CutOffCheck` restricted to the fields the classifier reads; the
remaining time is in seconds. -/
structure CutOffCheck where
  is_before : Bool
  time_remaining : Option Int
deriving DecidableEq, Repr

/-- `SettlementEngine._check_cut_off_times`: convert the execution
instant to the market zone, take its wall-clock time of day, and
compare strictly against the depository cut-off; the remaining time is
recorded only when still before the cut-off. -/
def checkCutOffTimes (execUtc : Int) (m : Market) : CutOffCheck :=
  match m.depositoryCutOff with
  | none => { is_before := true, time_remaining := none }
  | some cutOff =>
    let execLocal := convertFromUtc execUtc m.timezoneOffset
    let execTimeOnly := execLocal % secondsPerDay
    let isBefore : Bool := execTimeOnly < cutOff
    { is_before := isBefore
      time_remaining := if isBefore then some (cutOff - execTimeOnly) else none }

/-- `SettlementStatusEnum`. -/
inductive SettlementStatus where
  | likely
  | at_risk
  | unlikely
deriving DecidableEq, Repr

/-- The boolean condition tested per check in the at-risk scan of
`_determine_status`: `if check.time_remaining:` is Python truthiness
(absent or zero fails), and `minutes_remaining < 60` on an integral
number of seconds is `seconds < 3600`. -/
def atRiskCond (c : CutOffCheck) : Bool :=
  match c.time_remaining with
  | some t => t ≠ 0 && t < 3600
  | none => false

/-- `SettlementEngine._determine_status`: invalid trade date, then any
past cut-off, then any imminent cut-off (only when an execution time
was supplied and checks exist), then a settlement stretch beyond three
calendar days, else likely. -/
def determineStatus (valid : Bool) (checks : List CutOffCheck)
    (buyDays sellDays : Int) (execGiven : Bool) : SettlementStatus :=
  if !valid then .unlikely
  else if checks.any fun c => !c.is_before then .unlikely
  else if execGiven && !checks.isEmpty && checks.any atRiskCond then .at_risk
  else if 3 < max buyDays sellDays then .at_risk
  else .likely

/-- `SettlementEngine._validate_trade_date`, reduced to its `valid`
field: the trade date must be a trading day in both markets. -/
def validTradeDate (calA calB : HolidayCalendar) (d : Int) : Bool :=
  isTradingDay calA d && isTradingDay calB d

/-- The cut-off check list built by `check_settlement`: one check per
market when an execution time is supplied, otherwise empty. -/
def engineCutOffChecks (exec : Option Int) (mBuy mSell : Market) : List CutOffCheck :=
  match exec with
  | some e => [checkCutOffTimes e mBuy, checkCutOffTimes e mSell]
  | none => []

/-- The status computed by `check_settlement` for a request on known
markets, as a function of the calendars, the markets, the trade date,
the optional execution instant, and the two per-market settlement
results. -/
def engineStatus (calA calB : HolidayCalendar) (mBuy mSell : Market)
    (tradeDate : Int) (exec : Option Int) (buyDays sellDays : Int) : SettlementStatus :=
  determineStatus (validTradeDate calA calB tradeDate)
    (engineCutOffChecks exec mBuy mSell) buyDays sellDays exec.isSome

/-- Modelled from the spec: the classifier of section 4.6.1 as the
claim words it, rule by rule — invalid trade date, any past cut-off,
any remaining time strictly between 0 and 60 minutes, either side
settling in more than three days, else likely. -/
def specClassifier (tradingBoth : Bool) (checks : List CutOffCheck)
    (buyDays sellDays : Int) : SettlementStatus :=
  if !tradingBoth then .unlikely
  else if checks.any fun c => !c.is_before then .unlikely
  else if checks.any fun c =>
      match c.time_remaining with
      | some t => 0 < t && t < 3600
      | none => false then .at_risk
  else if 3 < buyDays || 3 < sellDays then .at_risk
  else .likely

/-! ## Derived notions used to state the claims -/

/-- One-day walk to the next settlement day strictly after `d` (the
`get_next_trading_day` scan pattern under `is_settlement_day`), with
fuel instead of the 30-day cap. -/
def nextSettlementScan (cal : HolidayCalendar) : Nat → Int → Option Int
  | 0, _ => none
  | f + 1, d =>
    if isSettlementDay cal (d + 1) then some (d + 1)
    else nextSettlementScan cal f (d + 1)

/-- A window list is sorted by `start_utc` with pairwise disjoint,
strictly ordered windows. -/
def windowsOrdered (l : List OverlapWindow) : Prop :=
  l.Pairwise fun w1 w2 => w1.end_utc ≤ w2.start_utc ∧ w1.start_utc < w2.start_utc

/-- Sessions of one market are ordered: each ends no later than the
next starts. -/
def sessionsOrdered (l : List (Int × Int)) : Prop :=
  l.Chain' fun x y => x.2 ≤ y.1

/-! ## Concrete fixtures for witnesses and counterexamples -/

/-- A calendar whose exchange source reports every day as a session,
with no manual holidays. -/
def calAll : HolidayCalendar :=
  { exchangeIsSession := fun _ => true
    publicHolidayName := fun _ => none
    manual := fun _ => none }

/-- A calendar whose exchange source reports no day as a session. -/
def calShut : HolidayCalendar :=
  { exchangeIsSession := fun _ => false
    publicHolidayName := fun _ => none
    manual := fun _ => none }

/-- A calendar whose exchange source reports only day `k` as a
session. -/
def calOnly (k : Int) : HolidayCalendar :=
  { exchangeIsSession := fun d => d == k
    publicHolidayName := fun _ => none
    manual := fun _ => none }

/-- A calendar that is closed per the exchange source but carries, on
day 0, a manual holiday entry that affects neither trading nor
settlement — the only way the `HolidayCalendar` model can express a
non-closing override. -/
def calOpenOverride : HolidayCalendar :=
  { exchangeIsSession := fun _ => false
    publicHolidayName := fun _ => none
    manual := fun d =>
      if d = 0 then
        some { name := "Special Open", affects_trading := false, affects_settlement := false }
      else none }

/-- The holiday data plane in the same situation: closed exchange
source and a force-open manual override on day 0. -/
def mgrOpenOverride : HolidayDataManager :=
  { exchangeIsTradingDay := fun _ => false
    manualOverride := fun d =>
      if d = 0 then
        some { name := "Special Open", is_closure := false,
               affects_trading := false, affects_settlement := false }
      else none }

/-- A Tokyo-like market: UTC+9, 09:00–15:00 with a 11:30–12:30 lunch
break, T+1, 14:00 depository cut-off (seconds of day). -/
def mJP : Market :=
  { timezoneOffset := 32400
    tradingHours := { openTime := 32400, closeTime := 54000, lunch := some (41400, 45000) }
    settlementCycle := 1
    depositoryCutOff := some 50400 }

/-- A Hong-Kong-like market: UTC+8, 09:30–16:00 with a 12:00–13:00
lunch break, T+1, 16:00 depository cut-off. -/
def mHK : Market :=
  { timezoneOffset := 28800
    tradingHours := { openTime := 34200, closeTime := 57600, lunch := some (43200, 46800) }
    settlementCycle := 1
    depositoryCutOff := some 57600 }

/-- A calendar that is open per the exchange source but carries, on
day 0, a manual holiday that affects trading only. -/
def calTradeOnlyOverride : HolidayCalendar :=
  { exchangeIsSession := fun _ => true
    publicHolidayName := fun _ => none
    manual := fun d =>
      if d = 0 then
        some { name := "Settlement Running", affects_trading := true, affects_settlement := false }
      else none }

/-! ## Theorems -/

theorem nextTradingAux_bounds (cal : HolidayCalendar) :
    ∀ (n : Nat) (d0 d : Int), nextTradingAux cal n d0 = some d → d0 ≤ d ∧ d < d0 + n := by
  intro n
  induction n with
  | zero => intro d0 d h; simp [nextTradingAux] at h
  | succ n ih =>
    intro d0 d h
    rw [nextTradingAux] at h
    split at h
    · cases h; omega
    · have := ih (d0 + 1) d h
      omega

theorem commonRoll_bounds (calA calB : HolidayCalendar) :
    ∀ (n : Nat) (c : Int), c ≤ commonRoll calA calB n c ∧ commonRoll calA calB n c ≤ c + n := by
  intro n
  induction n with
  | zero => intro c; simp [commonRoll]
  | succ n ih =>
    intro c
    rw [commonRoll]
    split
    · omega
    · have := ih (c + 1)
      omega

theorem viableAux_bounds (calA calB : HolidayCalendar)
    (overlap : Int → Option (List OverlapWindow)) (ro : Bool) :
    ∀ (n : Nat) (d0 d : Int), viableAux calA calB overlap ro n d0 = some d →
      d0 ≤ d ∧ d < d0 + n := by
  intro n
  induction n with
  | zero => intro d0 d h; simp [viableAux] at h
  | succ n ih =>
    intro d0 d h
    rw [viableAux] at h
    split at h
    · split at h
      · split at h
        · split at h
          · cases h; omega
          · have := ih (d0 + 1) d h; omega
        · have := ih (d0 + 1) d h; omega
      · cases h; omega
    · have := ih (d0 + 1) d h; omega

/-- C2: the claim states that a manual override resolves
`is_trading_day` first, with a force-open override (`is_closure =
false`) making the date a trading day against the exchange source. The
pinned implementation, `HolidayCalendar.is_trading_day`, has no
force-open path at all: a manual entry that does not affect trading
falls through to the exchange source. The sibling implementation,
`HolidayDataManager.is_trading_day`, honors force-open on the same
configuration, so the two calendar implementations diverge exactly as
the specification warns, and the pinned code contradicts the claimed
precedence. -/
theorem claim_C2_force_open_ignored :
    isTradingDay calOpenOverride 0 = false ∧
    managerIsTradingDay mgrOpenOverride 0 = true := by decide

/-- C3: evaluation at the failing input. With a buy market that can
settle only on day 1 and a sell market that can settle only on day 40,
a T+1/T+1 trade on day 0 makes `calculate_common_settlement_date`
return day 70 after its 30-iteration roll is exhausted, silently and
without an error, although neither market can settle on day 70. -/
theorem claim_C3_cap_breach_masked :
    (calculateCommonSettlementDate (calOnly 1) (calOnly 40) 1 1 0 64).map (fun r => r.1)
      = some 70 ∧
    isSettlementDay (calOnly 1) 70 = false ∧
    isSettlementDay (calOnly 40) 70 = false := by decide

/-- C5: counterexample. When the first market is not a trading day,
`get_trading_overlap_for_date` returns `None` (absence of a window
list), not an empty sequence of overlap windows. -/
theorem claim_C5_counterexample :
    getTradingOverlapForDate calShut calAll (some mJP) (some mHK) 0 = none ∧
    getTradingOverlapForDate calShut calAll (some mJP) (some mHK) 0 ≠ some [] := by decide

/-- C5 (amended): for every pair of markets and every date on which at
least one of them is not a trading day, the overlap calculation returns
`None` — no overlap windows are produced. -/
theorem claim_C5_overlap_none_when_closed :
    ∀ (calA calB : HolidayCalendar) (mA mB : Option Market) (d : Int),
      isTradingDay calA d = false ∨ isTradingDay calB d = false →
      getTradingOverlapForDate calA calB mA mB d = none := by
  intro calA calB mA mB d h
  unfold getTradingOverlapForDate
  rcases h with h | h <;> simp [h]

theorem claim_C5_witness :
    getTradingOverlapForDate calShut calAll (some mJP) (some mHK) 1 = none :=
  claim_C5_overlap_none_when_closed calShut calAll (some mJP) (some mHK) 1 (Or.inl (by decide))

/-- C7: when a depository cut-off is configured, the check is strict —
`is_before` holds exactly when the local wall-clock execution time is
strictly earlier than the cut-off, so execution exactly at the cut-off
is classified as past cut-off. -/
theorem claim_C7_cut_off_strict :
    ∀ (m : Market) (c execUtc : Int), m.depositoryCutOff = some c →
      ((checkCutOffTimes execUtc m).is_before = true ↔
        convertFromUtc execUtc m.timezoneOffset % secondsPerDay < c) ∧
      (convertFromUtc execUtc m.timezoneOffset % secondsPerDay = c →
        (checkCutOffTimes execUtc m).is_before = false) := by
  intro m c e hc
  unfold checkCutOffTimes
  rw [hc]
  constructor
  · simp
  · intro he
    simp [he]

theorem claim_C7_witness : (checkCutOffTimes 28800 mHK).is_before = false :=
  (claim_C7_cut_off_strict mHK 57600 28800 rfl).2 (by decide)

/-- C10: on dates without a manual holiday, `is_settlement_day` agrees
with `is_trading_day`; and a manual holiday that affects trading but
not settlement still makes the date a non-settlement day, because the
settlement predicate falls through to the trading predicate. -/
theorem claim_C10_settlement_follows_trading :
    ∀ (cal : HolidayCalendar) (d : Int),
      (cal.manual d = none → isSettlementDay cal d = isTradingDay cal d) ∧
      (∀ h, cal.manual d = some h → h.affects_trading = true →
        h.affects_settlement = false → isSettlementDay cal d = false) := by
  intro cal d
  constructor
  · intro hm
    simp [isSettlementDay, isTradingDay, hm]
  · intro h hm ht hs
    simp [isSettlementDay, isTradingDay, hm, ht, hs]

theorem claim_C10_witness :
    (isSettlementDay calTradeOnlyOverride 1 = isTradingDay calTradeOnlyOverride 1) ∧
    isSettlementDay calTradeOnlyOverride 0 = false :=
  ⟨(claim_C10_settlement_follows_trading calTradeOnlyOverride 1).1 (by decide),
   (claim_C10_settlement_follows_trading calTradeOnlyOverride 0).2
     { name := "Settlement Running", affects_trading := true, affects_settlement := false }
     (by decide) rfl rfl⟩

/-- C4: counterexample. The claim caps every calendar-scanning loop
reachable from `check_settlement` at 30 one-day iterations. The
next-viable-trade-date search, however, keeps scanning up to 60 days:
with both markets trading only on day 45, it performs 46 one-day
iterations from day 0 and returns day 45 instead of raising at 30.
The business-day advance has no cap at all: with the only settlement
day 40 days out, it does not finish within 30 one-day iterations but
succeeds when given 40. -/
theorem claim_C4_counterexample :
    (findNextViableTradeDate (calOnly 45) (calOnly 45) (fun _ => none) false 0 = .ok 45 ∧
      (30 : Int) < 45 - 0) ∧
    (calculateSettlementDate (calOnly 40) 0 1 30 = none ∧
      (calculateSettlementDate (calOnly 40) 0 1 40).map (fun r => r.settlement_date)
        = some 40) :=
  ⟨⟨rfl, by decide⟩, by decide, by decide⟩

/-- C4 (amended): the next-trading-day scan and the common-settlement
roll perform at most 30 one-day iterations; the next-viable-trade-date
search performs at most 60 one-day iterations before returning or
raising; the N-business-day advance loop is uncapped and can exceed 30
one-day steps. -/
theorem claim_C4_loop_caps :
    (∀ (cal : HolidayCalendar) (fromD d : Int),
      getNextTradingDay cal fromD = .ok d → fromD < d ∧ d ≤ fromD + 30) ∧
    (∀ (calA calB : HolidayCalendar) (c : Int),
      c ≤ commonRoll calA calB 30 c ∧ commonRoll calA calB 30 c ≤ c + 30) ∧
    (∀ (calA calB : HolidayCalendar) (overlap : Int → Option (List OverlapWindow))
      (ro : Bool) (fromD d : Int),
      findNextViableTradeDate calA calB overlap ro fromD = .ok d →
        fromD ≤ d ∧ d ≤ fromD + 59) ∧
    (calculateSettlementDate (calOnly 40) 0 1 30 = none ∧
      (calculateSettlementDate (calOnly 40) 0 1 40).isSome = true) := by
  refine ⟨?_, ?_, ?_, by decide⟩
  · intro cal fromD d h
    unfold getNextTradingDay at h
    split at h
    · cases h
      rename_i haux
      have := nextTradingAux_bounds cal 30 (fromD + 1) _ haux
      omega
    · cases h
  · intro calA calB c
    exact commonRoll_bounds calA calB 30 c
  · intro calA calB overlap ro fromD d h
    unfold findNextViableTradeDate at h
    split at h
    · cases h
      rename_i haux
      have := viableAux_bounds calA calB overlap ro 60 fromD _ haux
      omega
    · cases h

theorem claim_C4_witness :
    ((0 : Int) < 1 ∧ (1 : Int) ≤ 0 + 30) ∧ ((0 : Int) ≤ 0 ∧ (0 : Int) ≤ 0 + 59) :=
  ⟨claim_C4_loop_caps.1 calAll 0 1 rfl,
   claim_C4_loop_caps.2.2.1 calAll calAll (fun _ => none) false 0 0 rfl⟩

/-- C8: sessions are half-open intervals. A session pair in which one
session ends exactly when the other starts produces no overlap window;
every window emitted by the lunch-break-aware calculator has start
strictly before end; and the single-interval calculator only returns a
window whose start is strictly before its end. -/
theorem claim_C8_half_open_intervals :
    (∀ (offA offB : Int) (a b : Int × Int),
      a.2 = b.1 ∨ b.2 = a.1 → pairOverlap offA offB a b = none) ∧
    (∀ (offA openA closeA : Int) (lsA leA : Option Int)
      (offB openB closeB : Int) (lsB leB : Option Int) (dateE : Int)
      (w : OverlapWindow),
      w ∈ calculateOverlapWithLunchBreaks offA openA closeA lsA leA
        offB openB closeB lsB leB dateE →
      w.start_utc < w.end_utc) ∧
    (∀ (offA openA closeA offB openB closeB dateE : Int) (w : OverlapWindow),
      calculateOverlapWindow offA openA closeA offB openB closeB dateE = some w →
      w.start_utc < w.end_utc) := by
  refine ⟨?_, ?_, ?_⟩
  · intro offA offB a b h
    have hne : ¬ (max a.1 b.1 < min a.2 b.2) := by
      rcases h with h | h <;> omega
    simp [pairOverlap, hne]
  · intro offA openA closeA lsA leA offB openB closeB lsB leB dateE w hw
    unfold calculateOverlapWithLunchBreaks at hw
    obtain ⟨a, _, hfa⟩ := List.mem_flatMap.mp hw
    obtain ⟨b, _, hfb⟩ := List.mem_filterMap.mp hfa
    simp only [pairOverlap] at hfb
    split at hfb
    · cases hfb
      rename_i hlt
      simp only [mkOverlapWindow]
      omega
    · cases hfb
  · intro offA openA closeA offB openB closeB dateE w h
    simp only [calculateOverlapWindow] at h
    split at h
    · cases h
    · cases h
      simp only [mkOverlapWindow]
      omega

theorem claim_C8_witness :
    pairOverlap 0 0 ((0 : Int), (10 : Int)) ((10 : Int), (20 : Int)) = none :=
  claim_C8_half_open_intervals.1 0 0 (0, 10) (10, 20) (Or.inl rfl)

theorem any_congr_of_mem {α : Type} (l : List α) (f g : α → Bool)
    (h : ∀ c ∈ l, f c = g c) : l.any f = l.any g := by
  induction l with
  | nil => rfl
  | cons x xs ih =>
    simp only [List.any_cons]
    rw [h x (by simp), ih (fun c hc => h c (by simp [hc]))]

theorem checkCutOff_time_remaining_pos (e : Int) (m : Market) (t : Int)
    (h : (checkCutOffTimes e m).time_remaining = some t) : 0 < t := by
  cases hco : m.depositoryCutOff with
  | none => simp [checkCutOffTimes, hco] at h
  | some c =>
    by_cases hb : convertFromUtc e m.timezoneOffset % secondsPerDay < c
    · simp [checkCutOffTimes, hco, hb] at h
      omega
    · simp [checkCutOffTimes, hco, hb] at h

theorem atRiskCond_eq_spec (e : Int) (m : Market) :
    atRiskCond (checkCutOffTimes e m)
      = (match (checkCutOffTimes e m).time_remaining with
          | some t => decide (0 < t) && decide (t < 3600)
          | none => false) := by
  cases htr : (checkCutOffTimes e m).time_remaining with
  | none => simp [atRiskCond, htr]
  | some t =>
    have hp := checkCutOff_time_remaining_pos e m t htr
    simp [atRiskCond, htr, hp, hp.ne']

theorem max_days_ite {α : Type} (bd sd : Int) (x y : α) :
    (if 3 < bd ⊔ sd then x else y)
      = (if (decide (3 < bd) || decide (3 < sd)) = true then x else y) := by
  by_cases h : 3 < bd ⊔ sd
  · rcases lt_sup_iff.mp h with h1 | h1 <;> simp [h, h1]
  · have h1 : ¬ (3 < bd) := by omega
    have h2 : ¬ (3 < sd) := by omega
    simp [h, h1, h2]

/-- C1: the status computed by `check_settlement` for a request on
known markets equals the classifier of the claim, rule by rule: UNLIKELY
when the trade date is not a trading day in both markets; else UNLIKELY
when any cut-off check is past; else AT_RISK when any cut-off check has
time remaining strictly between 0 and 60 minutes; else AT_RISK when
either side needs more than 3 days to settle; else LIKELY. -/
theorem claim_C1_classifier_rules :
    ∀ (calA calB : HolidayCalendar) (mBuy mSell : Market) (d : Int)
      (exec : Option Int) (buyDays sellDays : Int),
      engineStatus calA calB mBuy mSell d exec buyDays sellDays
        = specClassifier (validTradeDate calA calB d)
            (engineCutOffChecks exec mBuy mSell) buyDays sellDays := by
  intro calA calB mBuy mSell d exec buyDays sellDays
  cases exec with
  | none =>
    simp only [engineStatus, determineStatus, specClassifier, engineCutOffChecks,
      Option.isSome_none, List.any_nil, Bool.false_and, Bool.and_false, if_false,
      Bool.not_false, ite_false, Bool.false_eq_true]
    rw [max_days_ite]
  | some e =>
    have hany : List.any [checkCutOffTimes e mBuy, checkCutOffTimes e mSell] atRiskCond
        = List.any [checkCutOffTimes e mBuy, checkCutOffTimes e mSell]
            (fun c => match c.time_remaining with
              | some t => decide (0 < t) && decide (t < 3600)
              | none => false) := by
      apply any_congr_of_mem
      intro c hc
      have hc' : c = checkCutOffTimes e mBuy ∨ c = checkCutOffTimes e mSell := by
        simpa using hc
      rcases hc' with rfl | rfl
      · exact atRiskCond_eq_spec e mBuy
      · exact atRiskCond_eq_spec e mSell
    simp only [engineStatus, determineStatus, specClassifier, engineCutOffChecks,
      Option.isSome_some, List.isEmpty_cons, Bool.not_false, Bool.true_and]
    rw [hany, max_days_ite]

theorem buildTradingSessions_length (dateE offset openT closeT : Int)
    (lunchS lunchE : Option Int) :
    (buildTradingSessions dateE offset openT closeT lunchS lunchE).length ≤ 2 := by
  unfold buildTradingSessions
  cases lunchS <;> cases lunchE <;> simp

theorem buildTradingSessions_ordered (dateE offset openT closeT : Int)
    (lunchS lunchE : Option Int)
    (h : ∀ s e, lunchS = some s → lunchE = some e → s ≤ e) :
    sessionsOrdered (buildTradingSessions dateE offset openT closeT lunchS lunchE) := by
  unfold buildTradingSessions sessionsOrdered
  cases hs : lunchS with
  | none => cases lunchE <;> simp
  | some s =>
    cases he : lunchE with
    | none => simp
    | some e =>
      have := h s e hs he
      simp only [List.chain'_cons, List.chain'_singleton, and_true]
      unfold combineDateTimeUtc
      omega

theorem pairOverlap_cases (offA offB : Int) (a b : Int × Int) :
    pairOverlap offA offB a b = none ∨
    (pairOverlap offA offB a b
        = some (mkOverlapWindow offA offB (max a.1 b.1) (min a.2 b.2))
      ∧ max a.1 b.1 < min a.2 b.2) := by
  by_cases h : max a.1 b.1 < min a.2 b.2
  · right
    refine ⟨?_, h⟩
    simp [pairOverlap, h]
  · left
    simp [pairOverlap, h]

set_option maxHeartbeats 1600000 in
theorem overlaps_ordered_aux (offA offB : Int) (A B : List (Int × Int))
    (hA : A.length ≤ 2) (hB : B.length ≤ 2)
    (hoA : sessionsOrdered A) (hoB : sessionsOrdered B) :
    windowsOrdered (A.flatMap fun a => B.filterMap fun b => pairOverlap offA offB a b) := by
  match A, B with
  | _ :: _ :: _ :: _, _ => simp at hA
  | [], _ => simp [windowsOrdered]
  | [a1], _ :: _ :: _ :: _ => simp at hB
  | [a1, a2], _ :: _ :: _ :: _ => simp at hB
  | [a1], [] => simp [windowsOrdered]
  | [a1, a2], [] => simp [windowsOrdered]
  | [a1], [b1] =>
    rcases pairOverlap_cases offA offB a1 b1 with h11 | ⟨h11, hc11⟩ <;>
      simp [windowsOrdered, h11]
  | [a1], [b1, b2] =>
    simp only [sessionsOrdered, List.chain'_cons, List.chain'_singleton, and_true] at hoB
    rcases pairOverlap_cases offA offB a1 b1 with h11 | ⟨h11, hc11⟩ <;>
      rcases pairOverlap_cases offA offB a1 b2 with h12 | ⟨h12, hc12⟩ <;>
      simp [windowsOrdered, h11, h12, List.pairwise_cons, mkOverlapWindow] <;>
      omega
  | [a1, a2], [b1] =>
    simp only [sessionsOrdered, List.chain'_cons, List.chain'_singleton, and_true] at hoA
    rcases pairOverlap_cases offA offB a1 b1 with h11 | ⟨h11, hc11⟩ <;>
      rcases pairOverlap_cases offA offB a2 b1 with h21 | ⟨h21, hc21⟩ <;>
      simp [windowsOrdered, h11, h21, List.pairwise_cons, mkOverlapWindow] <;>
      omega
  | [a1, a2], [b1, b2] =>
    simp only [sessionsOrdered, List.chain'_cons, List.chain'_singleton, and_true]
      at hoA hoB
    rcases pairOverlap_cases offA offB a1 b1 with h11 | ⟨h11, hc11⟩ <;>
      rcases pairOverlap_cases offA offB a1 b2 with h12 | ⟨h12, hc12⟩ <;>
      rcases pairOverlap_cases offA offB a2 b1 with h21 | ⟨h21, hc21⟩ <;>
      rcases pairOverlap_cases offA offB a2 b2 with h22 | ⟨h22, hc22⟩ <;>
      simp [windowsOrdered, h11, h12, h21, h22, List.pairwise_cons, mkOverlapWindow] <;>
      omega

/-- C6: the window list produced by the lunch-break-aware overlap
calculator is sorted by `start_utc`, with pairwise non-overlapping,
strictly ordered windows, whenever each lunch break (if present) starts
no later than it ends. -/
theorem claim_C6_windows_sorted :
    ∀ (offA openA closeA : Int) (lsA leA : Option Int)
      (offB openB closeB : Int) (lsB leB : Option Int) (dateE : Int),
      (∀ s e, lsA = some s → leA = some e → s ≤ e) →
      (∀ s e, lsB = some s → leB = some e → s ≤ e) →
      windowsOrdered (calculateOverlapWithLunchBreaks offA openA closeA lsA leA
        offB openB closeB lsB leB dateE) := by
  intro offA openA closeA lsA leA offB openB closeB lsB leB dateE hA hB
  unfold calculateOverlapWithLunchBreaks
  exact overlaps_ordered_aux offA offB _ _
    (buildTradingSessions_length dateE offA openA closeA lsA leA)
    (buildTradingSessions_length dateE offB openB closeB lsB leB)
    (buildTradingSessions_ordered dateE offA openA closeA lsA leA hA)
    (buildTradingSessions_ordered dateE offB openB closeB lsB leB hB)

theorem claim_C6_witness :
    windowsOrdered (calculateOverlapWithLunchBreaks 32400 32400 54000
      (some 41400) (some 45000) 28800 34200 57600 (some 43200) (some 46800) 0) :=
  claim_C6_windows_sorted 32400 32400 54000 (some 41400) (some 45000)
    28800 34200 57600 (some 43200) (some 46800) 0
    (by intro s e hs he; injection hs with hs; injection he with he; omega)
    (by intro s e hs he; injection hs with hs; injection he with he; omega)

theorem settleLoop_eq (cal : HolidayCalendar) (cycle fuel : Nat) (cur : Int)
    (counted : Nat) (skp : List (Int × String)) :
    settleLoop cal cycle fuel cur counted skp =
      if counted < cycle then
        match fuel with
        | 0 => none
        | fuel' + 1 =>
          let next := cur + 1
          if isSettlementDay cal next then
            settleLoop cal cycle fuel' next (counted + 1) skp
          else
            settleLoop cal cycle fuel' next counted (skp ++ [(next, skipReason cal next)])
      else some (cur, skp) := by
  rw [settleLoop.eq_def]

theorem settleLoop_exit (cal : HolidayCalendar) (cycle fuel : Nat) (cur : Int)
    (counted : Nat) (skp : List (Int × String)) (h : ¬ counted < cycle) :
    settleLoop cal cycle fuel cur counted skp = some (cur, skp) := by
  rw [settleLoop_eq, if_neg h]

theorem settleLoop_last (cal : HolidayCalendar) (n : Nat) :
    ∀ (fuel : Nat) (cur : Int) (skp : List (Int × String))
      (out : Int × List (Int × String)),
      settleLoop cal (n + 1) fuel cur n skp = some out →
      nextSettlementScan cal fuel cur = some out.1 := by
  intro fuel
  induction fuel with
  | zero =>
    intro cur skp out h
    rw [settleLoop_eq, if_pos (Nat.lt_succ_self n)] at h
    simp at h
  | succ f ih =>
    intro cur skp out h
    rw [settleLoop_eq, if_pos (Nat.lt_succ_self n)] at h
    rw [nextSettlementScan]
    by_cases hs : isSettlementDay cal (cur + 1) = true
    · rw [if_pos hs]
      simp only [hs, if_true] at h
      rw [settleLoop_exit cal (n + 1) f (cur + 1) (n + 1) skp (by omega)] at h
      cases h
      rfl
    · rw [if_neg hs]
      simp only [Bool.not_eq_true] at hs
      simp only [hs, Bool.false_eq_true, if_false] at h
      exact ih (cur + 1) _ out h

theorem settleLoop_split (cal : HolidayCalendar) (n : Nat) (fuel : Nat) (cur : Int)
    (counted : Nat) (skp : List (Int × String)) (out : Int × List (Int × String))
    (hle : counted ≤ n) (h : settleLoop cal (n + 1) fuel cur counted skp = some out) :
    ∃ mid skmid f', settleLoop cal n fuel cur counted skp = some (mid, skmid)
      ∧ nextSettlementScan cal f' mid = some out.1 := by
  induction fuel generalizing cur counted skp with
  | zero =>
    rw [settleLoop_eq, if_pos (by omega : counted < n + 1)] at h
    simp at h
  | succ f ih =>
    by_cases hlt : counted < n
    · rw [settleLoop_eq, if_pos (by omega : counted < n + 1)] at h
      by_cases hs : isSettlementDay cal (cur + 1) = true
      · simp only [hs, if_true] at h
        obtain ⟨mid, skmid, f', h1, h2⟩ := ih (cur + 1) (counted + 1) skp (by omega) h
        refine ⟨mid, skmid, f', ?_, h2⟩
        rw [settleLoop_eq, if_pos hlt]
        simp only [hs, if_true]
        exact h1
      · simp only [Bool.not_eq_true] at hs
        simp only [hs, Bool.false_eq_true, if_false] at h
        obtain ⟨mid, skmid, f', h1, h2⟩ := ih (cur + 1) counted _ (by omega) h
        refine ⟨mid, skmid, f', ?_, h2⟩
        rw [settleLoop_eq, if_pos hlt]
        simp only [hs, Bool.false_eq_true, if_false]
        exact h1
    · have heq : counted = n := by omega
      subst heq
      exact ⟨cur, skp, f + 1, settleLoop_exit cal counted (f + 1) cur counted skp (by omega),
        settleLoop_last cal counted (f + 1) cur skp out h⟩

/-- C9: advancing by 0 business days returns the trade date itself with
no days skipped, and advancing by `n + 1` business days reaches exactly
the next settlement day strictly after the date reached by advancing
`n` business days, where the next settlement day is found by the
one-day walk under `is_settlement_day`. -/
theorem claim_C9_advance_recurrence :
    ∀ (cal : HolidayCalendar) (d : Int) (n fuel : Nat),
      calculateSettlementDate cal d 0 fuel
        = some { trade_date := d, settlement_date := d, days_to_settle := 0,
                 skipped_days := [] } ∧
      (∀ r, calculateSettlementDate cal d (n + 1) fuel = some r →
        ∃ r' f', calculateSettlementDate cal d n fuel = some r'
          ∧ nextSettlementScan cal f' r'.settlement_date = some r.settlement_date) := by
  intro cal d n fuel
  constructor
  · simp [calculateSettlementDate, settleLoop_exit cal 0 fuel d 0 [] (by omega)]
  · intro r h
    cases hout : settleLoop cal (n + 1) fuel d 0 [] with
    | none => simp [calculateSettlementDate, hout] at h
    | some out =>
      obtain ⟨mid, skmid, f', h1, h2⟩ :=
        settleLoop_split cal n fuel d 0 [] out (Nat.zero_le n) hout
      refine ⟨{ trade_date := d, settlement_date := mid, days_to_settle := mid - d,
                skipped_days := skmid }, f', ?_, ?_⟩
      · simp [calculateSettlementDate, h1]
      · simp only [calculateSettlementDate, hout, Option.map_some] at h
        cases h
        exact h2

theorem claim_C9_witness :
    (calculateSettlementDate calAll 0 0 5
      = some { trade_date := 0, settlement_date := 0, days_to_settle := 0,
               skipped_days := [] }) ∧
    (∃ r' f', calculateSettlementDate calAll 0 0 5 = some r'
      ∧ nextSettlementScan calAll f' r'.settlement_date = some (1 : Int)) :=
  ⟨(claim_C9_advance_recurrence calAll 0 0 5).1,
   (claim_C9_advance_recurrence calAll 0 0 5).2
     { trade_date := 0, settlement_date := 1, days_to_settle := 1, skipped_days := [] }
     (by decide)⟩

end TradeSync
